import Mathlib

/-
Verification of the Nondominium identity-bound private record subsystem
(src/dnas/nondominium/zomes/coordinator/zome_person/src/private_data.rs)
against its natural-language specification.

The three controller operations are translated directly from the Rust source.
The substrate capabilities they consume (record store `create_entry` / `get` /
`update_entry` / `must_get_valid_record`, link graph `get_links` /
`create_link`) are external to the repository slice and are modelled from the
spec's assumed contract (spec sections 4.1 and 4.2): an append-only
content-addressed record log, a typed append-only edge store queried oldest
first, and owner-only visibility of private entries. A `lost` set of addresses
the store fails to serve on read models the spec's "a write might be
considered to have not taken effect" case (section 4.3, store step 2).
-/

namespace Nondominium

/-- Private person data entry, seven fields as in the `PrivatePersonData`
entry type referenced by private_data.rs (spec section 3 data model). -/
structure PrivatePersonData where
  legal_name : String
  email : String
  phone : Option String
  address : Option String
  emergency_contact : Option String
  time_zone : Option String
  location : Option String
deriving DecidableEq

/-- Input payload, translated from `PrivatePersonDataInput` in private_data.rs. -/
structure PrivatePersonDataInput where
  legal_name : String
  email : String
  phone : Option String
  address : Option String
  emergency_contact : Option String
  time_zone : Option String
  location : Option String
deriving DecidableEq

/-- Field-for-field construction of the entry from the input, exactly the
struct literal in the bodies of `store_private_person_data` and
`update_private_person_data`. -/
def toPrivatePersonData (input : PrivatePersonDataInput) : PrivatePersonData :=
  ⟨input.legal_name, input.email, input.phone, input.address,
    input.emergency_contact, input.time_zone, input.location⟩

/-- Link types referenced by private_data.rs. -/
inductive LinkTypes where
  | AgentToPerson
  | PersonToPrivateData
deriving DecidableEq

/-- A linkable hash: an agent key, an action hash, or an entry hash (the
substrate's AnyLinkableHash; link bases and targets range over these). -/
inductive LinkableHash where
  | agentKey (k : Nat)
  | actionHash (h : Nat)
  | entryHash (h : Nat)
deriving DecidableEq

/-- Conversion of a linkable hash into an action hash, as in
`private_data_link.target.clone().into_action_hash()`: succeeds only on an
action hash. -/
def LinkableHash.into_action_hash : LinkableHash → Option Nat
  | .actionHash h => some h
  | _ => none

/-- Entry payload of a stored record: a `PrivatePersonData` entry or an entry
of some other app type (which does not decode as `PrivatePersonData`). -/
inductive EntryPayload where
  | privatePersonData (d : PrivatePersonData)
  | otherEntry (tag : Nat)
deriving DecidableEq

/-- Decoding a record entry as `PrivatePersonData`, as in
`record.entry().to_app_option::<PrivatePersonData>()`; the source keeps the
value only in the `Ok(Some(..))` case, so the model returns an `Option`. -/
def EntryPayload.to_app_option : EntryPayload → Option PrivatePersonData
  | .privatePersonData d => some d
  | .otherEntry _ => none

/-- A record as kept by the record store: authoring agent, entry payload,
visibility flag and update provenance (previous action hash, if any).
Substrate model per spec section 4.1. -/
structure StoredRecord where
  author : Nat
  payload : EntryPayload
  isPrivate : Bool
  prev : Option Nat
deriving DecidableEq

/-- A retrieved record: its action hash (address) together with the stored
data, mirroring the `Record` returned by the substrate's `get`. -/
structure Record where
  actionHash : Nat
  stored : StoredRecord
deriving DecidableEq

/-- A typed directed edge of the link graph. Substrate model per spec
section 4.2. -/
structure Link where
  base : LinkableHash
  target : LinkableHash
  linkType : LinkTypes
deriving DecidableEq

/-- Substrate state: the content-addressed record log (append-only, oldest
first), the link graph (append-only, oldest first), the next fresh address,
and the set of addresses the store fails to serve on read (modelling the
spec's "a write might be considered to have not taken effect" case). -/
structure SubstrateState where
  records : List (Nat × StoredRecord)
  links : List Link
  nextHash : Nat
  lost : List Nat
deriving DecidableEq

/-- Well-formed state: every allocated address is below the next fresh one. -/
def SubstrateState.WF (s : SubstrateState) : Prop :=
  ∀ p ∈ s.records, p.1 < s.nextHash

instance (s : SubstrateState) : Decidable s.WF :=
  inferInstanceAs (Decidable (∀ p ∈ s.records, p.1 < s.nextHash))

/-- Record lookup in the log by action hash (first entry with that key). -/
def lookupRecord (s : SubstrateState) (h : Nat) : Option StoredRecord :=
  (s.records.find? (fun p => p.1 == h)).map Prod.snd

/-- Substrate `get` (spec section 4.1 `read`): returns nothing when the
address is unknown, when the store fails to serve it, or when the entry is
private and the caller is not its author; absence cases are not
distinguished (privacy by default). -/
def hdkGet (s : SubstrateState) (caller h : Nat) : Option Record :=
  if h ∈ s.lost then none
  else
    match lookupRecord s h with
    | none => none
    | some r => if r.isPrivate && r.author != caller then none else some ⟨h, r⟩

/-- Substrate `create_entry` (spec section 4.1 `write`): appends a record
authored by the caller at the next fresh address and returns that address. -/
def hdkCreateEntry (s : SubstrateState) (caller : Nat) (p : EntryPayload)
    (priv : Bool) : Nat × SubstrateState :=
  ⟨s.nextHash,
    ⟨s.records ++ [⟨s.nextHash, ⟨caller, p, priv, none⟩⟩], s.links,
      s.nextHash + 1, s.lost⟩⟩

/-- Substrate `update_entry` (spec section 4.1 `update`): appends a new record
whose provenance names the previous address and returns the new address. -/
def hdkUpdateEntry (s : SubstrateState) (caller prevHash : Nat)
    (p : EntryPayload) (priv : Bool) : Nat × SubstrateState :=
  ⟨s.nextHash,
    ⟨s.records ++ [⟨s.nextHash, ⟨caller, p, priv, some prevHash⟩⟩], s.links,
      s.nextHash + 1, s.lost⟩⟩

/-- Substrate `get_links` (spec section 4.2 `links_from`): the edges from
`base` with the given type, oldest first; an empty list, never an error,
when none exist. -/
def hdkGetLinks (s : SubstrateState) (base : LinkableHash) (lt : LinkTypes) :
    List Link :=
  s.links.filter (fun l => l.base == base && l.linkType == lt)

/-- Substrate `create_link` (spec section 4.2 `link`): appends a new edge;
no deduplication, repeated calls accumulate edges. -/
def hdkCreateLink (s : SubstrateState) (base target : LinkableHash)
    (lt : LinkTypes) : SubstrateState :=
  ⟨s.records, s.links ++ [⟨base, target, lt⟩], s.nextHash, s.lost⟩

/-- Errors surfaced by the controller: the zome's `EntryOperationFailed`
variant of `PersonError`, and errors propagated verbatim from the
substrate. -/
inductive ZomeError where
  | EntryOperationFailed (msg : String)
  | SubstrateError (msg : String)
deriving DecidableEq

/-- Substrate `must_get_valid_record`: resolves an action hash to its record
or fails with a substrate error; absence is not distinguished from a
substrate fault (spec section 4.3, update step 1). -/
def must_get_valid_record (s : SubstrateState) (h : Nat) :
    Except ZomeError Record :=
  if h ∈ s.lost then .error (.SubstrateError "record not found")
  else
    match lookupRecord s h with
    | none => .error (.SubstrateError "record not found")
    | some r => .ok ⟨h, r⟩

/-- Modelled from the spec: the integrity zome (not under src/) declares the
`PrivatePersonData` entry type with private visibility — "Visibility =
private (owner-only)" (spec section 3). -/
def privatePersonDataIsPrivate : Bool := true

/-- Controller `store_private_person_data`, translated from private_data.rs:
copy the input fields into the entry, create the private entry, read it back
(failing with `EntryOperationFailed` when the read returns nothing), then
link the caller's person record to the private data when an `AgentToPerson`
link exists, and return the verified record. -/
def store_private_person_data (s : SubstrateState) (caller : Nat)
    (input : PrivatePersonDataInput) : Except ZomeError Record × SubstrateState :=
  let private_data := toPrivatePersonData input
  let created := hdkCreateEntry s caller (.privatePersonData private_data)
    privatePersonDataIsPrivate
  let private_data_hash := created.1
  let s1 := created.2
  match hdkGet s1 caller private_data_hash with
  | none =>
    ⟨.error (.EntryOperationFailed "Failed to retrieve created private data"), s1⟩
  | some record =>
    let person_links := hdkGetLinks s1 (.agentKey caller) .AgentToPerson
    match person_links.head? with
    | some person_link =>
      ⟨.ok record,
        hdkCreateLink s1 person_link.target (.actionHash private_data_hash)
          .PersonToPrivateData⟩
    | none => ⟨.ok record, s1⟩

/-- Update input, translated from `UpdatePrivatePersonDataInput`. -/
structure UpdatePrivatePersonDataInput where
  original_action_hash : Nat
  previous_action_hash : Nat
  updated_private_data : PrivatePersonDataInput
deriving DecidableEq

/-- Controller `update_private_person_data`, translated from private_data.rs:
resolve the original action hash (propagating a substrate failure verbatim),
update the entry against the previous action hash, read back the new address
(failing with `EntryOperationFailed` when the read returns nothing), and
return the verified record. No link is written. -/
def update_private_person_data (s : SubstrateState) (caller : Nat)
    (input : UpdatePrivatePersonDataInput) :
    Except ZomeError Record × SubstrateState :=
  match must_get_valid_record s input.original_action_hash with
  | .error e => ⟨.error e, s⟩
  | .ok _original_record =>
    let updated_private_data := toPrivatePersonData input.updated_private_data
    let updated := hdkUpdateEntry s caller input.previous_action_hash
      (.privatePersonData updated_private_data) privatePersonDataIsPrivate
    match hdkGet updated.2 caller updated.1 with
    | none =>
      ⟨.error (.EntryOperationFailed "Failed to retrieve updated private data"),
        updated.2⟩
    | some record => ⟨.ok record, updated.2⟩

/-- Controller `get_my_private_person_data`, translated from private_data.rs:
walk caller, first `AgentToPerson` link, first `PersonToPrivateData` link,
record, decoded payload — returning the empty result whenever any step is
missing. -/
def get_my_private_person_data (s : SubstrateState) (caller : Nat) :
    Except ZomeError (Option PrivatePersonData) :=
  let person_links := hdkGetLinks s (.agentKey caller) .AgentToPerson
  match person_links.head? with
  | none => .ok none
  | some person_link =>
    let private_data_links := hdkGetLinks s person_link.target .PersonToPrivateData
    match private_data_links.head? with
    | none => .ok none
    | some private_data_link =>
      match private_data_link.target.into_action_hash with
      | none => .ok none
      | some action_hash =>
        match hdkGet s caller action_hash with
        | none => .ok none
        | some record =>
          match record.stored.payload.to_app_option with
          | none => .ok none
          | some private_data => .ok (some private_data)

/-- A concrete input payload used to exercise the operations. -/
def sampleInput : PrivatePersonDataInput :=
  ⟨"Jane Doe", "jane@example.com", none, none, none, none, none⟩

/-- A concrete input whose required fields are empty strings. -/
def emptyFieldsInput : PrivatePersonDataInput :=
  ⟨"", "", none, none, none, none, none⟩

/-- A second concrete input payload. -/
def secondInput : PrivatePersonDataInput :=
  ⟨"John Roe", "john@example.com", some "555", none, none, none, some ""⟩

/-- The empty substrate state. -/
def emptyState : SubstrateState := ⟨[], [], 0, []⟩

/-- A state in which agent 3 already has a person link (target well below any
address this run will allocate is not required; only the edge matters). -/
def linkedState : SubstrateState :=
  ⟨[], [⟨.agentKey 3, .actionHash 7, .AgentToPerson⟩], 0, []⟩

/-- A state holding one public record at address 0, authored by agent 7. -/
def oneRecordState : SubstrateState :=
  ⟨[⟨0, ⟨7, .otherEntry 0, false, none⟩⟩], [], 1, []⟩

/-- A concrete update input against address 0. -/
def sampleUpdateInput : UpdatePrivatePersonDataInput := ⟨0, 0, sampleInput⟩

/-- A state whose first `PersonToPrivateData` edge targets an entry hash while
a second edge targets a resolvable, decodable action hash. -/
def entryHashFirstState : SubstrateState :=
  ⟨[⟨1, ⟨2, .privatePersonData (toPrivatePersonData sampleInput), true, none⟩⟩],
    [⟨.agentKey 2, .actionHash 0, .AgentToPerson⟩,
     ⟨.actionHash 0, .entryHash 5, .PersonToPrivateData⟩,
     ⟨.actionHash 0, .actionHash 1, .PersonToPrivateData⟩], 2, []⟩

/-! Helper lemmas about the substrate model. -/

theorem find?_append_some {α : Type} (p : α → Bool) (l1 l2 : List α) (a : α)
    (h : l1.find? p = some a) : (l1 ++ l2).find? p = some a := by
  induction l1 with
  | nil => simp at h
  | cons x t ih =>
    rw [List.cons_append]
    by_cases hx : p x
    · rw [List.find?_cons_of_pos _ hx] at h ⊢
      exact h
    · rw [List.find?_cons_of_neg _ hx] at h ⊢
      exact ih h

theorem find?_append_none {α : Type} (p : α → Bool) (l1 l2 : List α)
    (h : l1.find? p = none) : (l1 ++ l2).find? p = l2.find? p := by
  induction l1 with
  | nil => simp
  | cons x t ih =>
    rw [List.cons_append]
    by_cases hx : p x
    · rw [List.find?_cons_of_pos _ hx] at h
      simp at h
    · rw [List.find?_cons_of_neg _ hx] at h ⊢
      exact ih h

theorem find?_key_fresh (l : List (Nat × StoredRecord)) (n : Nat) (r : StoredRecord)
    (hfresh : ∀ p ∈ l, p.1 < n) :
    (l ++ [(⟨n, r⟩ : Nat × StoredRecord)]).find? (fun p => p.1 == n) =
      some ⟨n, r⟩ := by
  have hnone : l.find? (fun p => p.1 == n) = none := by
    rw [List.find?_eq_none]
    intro x hx
    simp only [beq_iff_eq]
    exact Nat.ne_of_lt (hfresh x hx)
  rw [find?_append_none _ _ _ hnone]
  simp

theorem hdkCreateEntry_fst (s : SubstrateState) (c : Nat) (p : EntryPayload)
    (b : Bool) : (hdkCreateEntry s c p b).1 = s.nextHash := rfl

theorem hdkCreateEntry_records (s : SubstrateState) (c : Nat) (p : EntryPayload)
    (b : Bool) : (hdkCreateEntry s c p b).2.records =
      s.records ++ [⟨s.nextHash, ⟨c, p, b, none⟩⟩] := rfl

theorem hdkCreateEntry_nextHash (s : SubstrateState) (c : Nat) (p : EntryPayload)
    (b : Bool) : (hdkCreateEntry s c p b).2.nextHash = s.nextHash + 1 := rfl

theorem hdkCreateEntry_lost (s : SubstrateState) (c : Nat) (p : EntryPayload)
    (b : Bool) : (hdkCreateEntry s c p b).2.lost = s.lost := rfl

theorem hdkUpdateEntry_fst (s : SubstrateState) (c ph : Nat) (p : EntryPayload)
    (b : Bool) : (hdkUpdateEntry s c ph p b).1 = s.nextHash := rfl

theorem hdkGetLinks_createEntry (s : SubstrateState) (c : Nat) (p : EntryPayload)
    (b : Bool) (base : LinkableHash) (lt : LinkTypes) :
    hdkGetLinks (hdkCreateEntry s c p b).2 base lt = hdkGetLinks s base lt := rfl

theorem hdkGet_createLink (s : SubstrateState) (b t : LinkableHash)
    (lt : LinkTypes) (c n : Nat) :
    hdkGet (hdkCreateLink s b t lt) c n = hdkGet s c n := rfl

theorem lookupRecord_createLink (s : SubstrateState) (b t : LinkableHash)
    (lt : LinkTypes) (n : Nat) :
    lookupRecord (hdkCreateLink s b t lt) n = lookupRecord s n := rfl

theorem hdkCreateLink_nextHash (s : SubstrateState) (b t : LinkableHash)
    (lt : LinkTypes) : (hdkCreateLink s b t lt).nextHash = s.nextHash := rfl

theorem hdkCreateLink_lost (s : SubstrateState) (b t : LinkableHash)
    (lt : LinkTypes) : (hdkCreateLink s b t lt).lost = s.lost := rfl

theorem hdkGetLinks_createLink_same (s : SubstrateState) (b t : LinkableHash)
    (lt : LinkTypes) :
    hdkGetLinks (hdkCreateLink s b t lt) b lt =
      hdkGetLinks s b lt ++ [⟨b, t, lt⟩] := by
  unfold hdkGetLinks hdkCreateLink
  rw [List.filter_append]
  simp

theorem hdkGetLinks_createLink_ne (s : SubstrateState) (b t : LinkableHash)
    (lt : LinkTypes) (base : LinkableHash) (lt2 : LinkTypes) (hne : lt ≠ lt2) :
    hdkGetLinks (hdkCreateLink s b t lt) base lt2 = hdkGetLinks s base lt2 := by
  unfold hdkGetLinks hdkCreateLink
  rw [List.filter_append]
  simp [hne]

theorem lookupRecord_createEntry_self (s : SubstrateState) (caller : Nat)
    (p : EntryPayload) (b : Bool) (hWF : s.WF) :
    lookupRecord (hdkCreateEntry s caller p b).2 s.nextHash =
      some ⟨caller, p, b, none⟩ := by
  unfold lookupRecord
  rw [hdkCreateEntry_records, find?_key_fresh _ _ _ hWF]
  rfl

theorem lookupRecord_createEntry_old (s : SubstrateState) (caller : Nat)
    (p : EntryPayload) (b : Bool) (n : Nat) (r : StoredRecord)
    (hr : lookupRecord s n = some r) :
    lookupRecord (hdkCreateEntry s caller p b).2 n = some r := by
  unfold lookupRecord at hr ⊢
  rw [hdkCreateEntry_records]
  cases hf : s.records.find? (fun q => q.1 == n) with
  | none => rw [hf] at hr; simp at hr
  | some q =>
    rw [find?_append_some _ _ _ _ hf]
    rw [hf] at hr
    exact hr

theorem hdkGet_created_self (s : SubstrateState) (caller : Nat) (p : EntryPayload)
    (b : Bool) (hWF : s.WF) (hlost : s.nextHash ∉ s.lost) :
    hdkGet (hdkCreateEntry s caller p b).2 caller s.nextHash =
      some ⟨s.nextHash, ⟨caller, p, b, none⟩⟩ := by
  unfold hdkGet
  rw [hdkCreateEntry_lost, lookupRecord_createEntry_self s caller p b hWF]
  simp [hlost]

theorem hdkGet_created_foreign (s : SubstrateState) (caller other : Nat)
    (p : EntryPayload) (hWF : s.WF) (hne : other ≠ caller) :
    hdkGet (hdkCreateEntry s caller p true).2 other s.nextHash = none := by
  unfold hdkGet
  rw [hdkCreateEntry_lost, lookupRecord_createEntry_self s caller p true hWF]
  by_cases hl : s.nextHash ∈ s.lost
  · simp [hl]
  · have hcn : caller ≠ other := fun h => hne h.symm
    simp [hl, hcn]

theorem hdkGet_createEntry_old (s : SubstrateState) (caller2 : Nat)
    (p : EntryPayload) (b : Bool) (c n : Nat) (r : StoredRecord)
    (hr : lookupRecord s n = some r) :
    hdkGet (hdkCreateEntry s caller2 p b).2 c n = hdkGet s c n := by
  unfold hdkGet
  rw [hdkCreateEntry_lost, lookupRecord_createEntry_old _ _ _ _ _ _ hr, hr]

theorem WF_createEntry (s : SubstrateState) (caller : Nat) (p : EntryPayload)
    (b : Bool) (hWF : s.WF) : (hdkCreateEntry s caller p b).2.WF := by
  intro q hq
  rw [hdkCreateEntry_nextHash]
  rw [hdkCreateEntry_records] at hq
  rcases List.mem_append.mp hq with h | h
  · exact Nat.lt_succ_of_lt (hWF q h)
  · have hq2 : q = ⟨s.nextHash, ⟨caller, p, b, none⟩⟩ := List.mem_singleton.mp h
    rw [hq2]
    exact Nat.lt_succ_self _

theorem WF_createLink (s : SubstrateState) (b t : LinkableHash) (lt : LinkTypes)
    (hWF : s.WF) : (hdkCreateLink s b t lt).WF := hWF

theorem store_shape (s : SubstrateState) (caller : Nat)
    (input : PrivatePersonDataInput) :
    (store_private_person_data s caller input).2.records =
      s.records ++ [⟨s.nextHash,
        ⟨caller, .privatePersonData (toPrivatePersonData input),
          privatePersonDataIsPrivate, none⟩⟩] ∧
    (store_private_person_data s caller input).2.lost = s.lost := by
  unfold store_private_person_data
  dsimp only
  split
  · exact ⟨rfl, rfl⟩
  · split <;> exact ⟨rfl, rfl⟩

theorem store_with_person_link (s : SubstrateState) (caller : Nat)
    (input : PrivatePersonDataInput) (pl : Link) (hWF : s.WF)
    (hlost : s.nextHash ∉ s.lost)
    (hpl : (hdkGetLinks s (.agentKey caller) .AgentToPerson).head? = some pl) :
    store_private_person_data s caller input =
      ⟨.ok ⟨s.nextHash, ⟨caller, .privatePersonData (toPrivatePersonData input),
          privatePersonDataIsPrivate, none⟩⟩,
        hdkCreateLink (hdkCreateEntry s caller
            (.privatePersonData (toPrivatePersonData input))
            privatePersonDataIsPrivate).2
          pl.target (.actionHash s.nextHash) .PersonToPrivateData⟩ := by
  unfold store_private_person_data
  dsimp only
  rw [hdkCreateEntry_fst, hdkGet_created_self s caller _ _ hWF hlost]
  dsimp only
  rw [hdkGetLinks_createEntry, hpl]

theorem store_without_person_link (s : SubstrateState) (caller : Nat)
    (input : PrivatePersonDataInput) (hWF : s.WF)
    (hlost : s.nextHash ∉ s.lost)
    (hnoperson : hdkGetLinks s (.agentKey caller) .AgentToPerson = []) :
    store_private_person_data s caller input =
      ⟨.ok ⟨s.nextHash, ⟨caller, .privatePersonData (toPrivatePersonData input),
          privatePersonDataIsPrivate, none⟩⟩,
        (hdkCreateEntry s caller (.privatePersonData (toPrivatePersonData input))
          privatePersonDataIsPrivate).2⟩ := by
  unfold store_private_person_data
  dsimp only
  rw [hdkCreateEntry_fst, hdkGet_created_self s caller _ _ hWF hlost]
  dsimp only
  rw [hdkGetLinks_createEntry, hnoperson]
  rfl

/-! Claim theorems. -/

/-- C1: Visibility partitioning — for a private record written by identity A
via `store_private_person_data`, a read of that record's address performed by
any other identity B returns nothing (substrate modelled as returning nothing
for foreign reads of private entries), so B never observes A's
`PrivatePersonData` payload. -/
theorem visibility_foreign_read_none (s : SubstrateState) (A B : Nat)
    (input : PrivatePersonDataInput) (hWF : s.WF) (hne : B ≠ A) :
    hdkGet (store_private_person_data s A input).2 B s.nextHash = none := by
  obtain ⟨hrec, hlost⟩ := store_shape s A input
  unfold hdkGet lookupRecord
  rw [hrec, hlost, find?_key_fresh _ _ _ hWF]
  have hAB : A ≠ B := fun h => hne h.symm
  by_cases hl : s.nextHash ∈ s.lost
  · simp [hl]
  · simp [hl, privatePersonDataIsPrivate, hAB]

theorem visibility_foreign_read_none_witness :
    hdkGet (store_private_person_data emptyState 0 sampleInput).2 1 0 = none :=
  visibility_foreign_read_none emptyState 0 1 sampleInput (by decide) (by decide)

/-- C2: Post-write verification — `store_private_person_data` first writes the
payload (the created entry is in the resulting record log in every outcome),
then reads back the obtained address; it fails with `EntryOperationFailed` if
and only if that read-back returns nothing, and otherwise returns the record
read back in that step. -/
theorem store_postwrite_verification (s : SubstrateState) (caller : Nat)
    (input : PrivatePersonDataInput) :
    ((store_private_person_data s caller input).1 =
        .error (.EntryOperationFailed "Failed to retrieve created private data") ↔
      hdkGet (hdkCreateEntry s caller
          (.privatePersonData (toPrivatePersonData input))
          privatePersonDataIsPrivate).2 caller s.nextHash = none) ∧
    (∀ r, hdkGet (hdkCreateEntry s caller
          (.privatePersonData (toPrivatePersonData input))
          privatePersonDataIsPrivate).2 caller s.nextHash = some r →
      (store_private_person_data s caller input).1 = .ok r) ∧
    (store_private_person_data s caller input).2.records =
      (hdkCreateEntry s caller (.privatePersonData (toPrivatePersonData input))
        privatePersonDataIsPrivate).2.records := by
  unfold store_private_person_data
  dsimp only
  rw [hdkCreateEntry_fst]
  cases hg : hdkGet (hdkCreateEntry s caller
      (.privatePersonData (toPrivatePersonData input))
      privatePersonDataIsPrivate).2 caller s.nextHash with
  | none =>
    refine ⟨by simp, ?_, rfl⟩
    intro r hr
    simp at hr
  | some record =>
    cases hh : (hdkGetLinks (hdkCreateEntry s caller
        (.privatePersonData (toPrivatePersonData input))
        privatePersonDataIsPrivate).2 (.agentKey caller) .AgentToPerson).head? with
    | none =>
      refine ⟨by simp, ?_, rfl⟩
      intro r hr
      injection hr with hr2
      subst hr2
      rfl
    | some pl =>
      refine ⟨by simp, ?_, rfl⟩
      intro r hr
      injection hr with hr2
      subst hr2
      rfl

theorem store_postwrite_verification_witness :
    (store_private_person_data emptyState 5 sampleInput).1 =
      .ok ⟨0, ⟨5, .privatePersonData (toPrivatePersonData sampleInput),
        privatePersonDataIsPrivate, none⟩⟩ :=
  (store_postwrite_verification emptyState 5 sampleInput).2.1 _ rfl

/-- C3: `get_my_private_person_data` never fails — for every substrate state it
returns an `Option` result, and whenever any link in the traversal chain is
missing (no person link, no private-data link, unresolvable record, or
undecodable payload) it returns the empty result rather than an error. -/
theorem get_my_private_data_never_fails (s : SubstrateState) (caller : Nat) :
    (∃ v, get_my_private_person_data s caller = .ok v) ∧
    (hdkGetLinks s (.agentKey caller) .AgentToPerson = [] →
      get_my_private_person_data s caller = .ok none) ∧
    (∀ pl, (hdkGetLinks s (.agentKey caller) .AgentToPerson).head? = some pl →
      hdkGetLinks s pl.target .PersonToPrivateData = [] →
      get_my_private_person_data s caller = .ok none) ∧
    (∀ pl dl ah, (hdkGetLinks s (.agentKey caller) .AgentToPerson).head? = some pl →
      (hdkGetLinks s pl.target .PersonToPrivateData).head? = some dl →
      dl.target.into_action_hash = some ah → hdkGet s caller ah = none →
      get_my_private_person_data s caller = .ok none) ∧
    (∀ pl dl ah r, (hdkGetLinks s (.agentKey caller) .AgentToPerson).head? = some pl →
      (hdkGetLinks s pl.target .PersonToPrivateData).head? = some dl →
      dl.target.into_action_hash = some ah → hdkGet s caller ah = some r →
      r.stored.payload.to_app_option = none →
      get_my_private_person_data s caller = .ok none) := by
  refine ⟨?_, ?_, ?_, ?_, ?_⟩
  · unfold get_my_private_person_data
    dsimp only
    repeat' split
    all_goals exact ⟨_, rfl⟩
  · intro h
    simp [get_my_private_person_data, h]
  · intro pl h1 h2
    simp [get_my_private_person_data, h1, h2]
  · intro pl dl ah h1 h2 h3 h4
    simp [get_my_private_person_data, h1, h2, h3, h4]
  · intro pl dl ah r h1 h2 h3 h4 h5
    simp [get_my_private_person_data, h1, h2, h3, h4, h5]

theorem get_my_private_data_never_fails_witness :
    get_my_private_person_data emptyState 0 = .ok none :=
  (get_my_private_data_never_fails emptyState 0).2.1 rfl

/-- C4: Happy-path round trip — when the caller already has a person link and
its target carries no prior `PersonToPrivateData` edges, a successful store is
immediately followed by a `get_my_private_person_data` that returns exactly the
stored payload, field for field (structural equality of all seven fields, so
`none` and `some ""` optional fields are both preserved as given). -/
theorem store_get_round_trip (s : SubstrateState) (caller : Nat)
    (input : PrivatePersonDataInput) (pl : Link) (hWF : s.WF)
    (hlost : s.nextHash ∉ s.lost)
    (hpl : (hdkGetLinks s (.agentKey caller) .AgentToPerson).head? = some pl)
    (hnodata : hdkGetLinks s pl.target .PersonToPrivateData = []) :
    (∃ r, (store_private_person_data s caller input).1 = .ok r) ∧
    get_my_private_person_data (store_private_person_data s caller input).2
      caller = .ok (some (toPrivatePersonData input)) := by
  rw [store_with_person_link s caller input pl hWF hlost hpl]
  refine ⟨⟨_, rfl⟩, ?_⟩
  unfold get_my_private_person_data
  dsimp only
  rw [hdkGetLinks_createLink_ne _ _ _ _ _ _ (by decide), hdkGetLinks_createEntry,
    hpl]
  dsimp only
  rw [hdkGetLinks_createLink_same, hdkGetLinks_createEntry, hnodata]
  dsimp only [List.nil_append, List.head?, LinkableHash.into_action_hash]
  rw [hdkGet_createLink, hdkGet_created_self s caller _ _ hWF hlost]
  rfl

theorem store_get_round_trip_witness :
    (∃ r, (store_private_person_data linkedState 3 sampleInput).1 = .ok r) ∧
    get_my_private_person_data (store_private_person_data linkedState 3
      sampleInput).2 3 = .ok (some (toPrivatePersonData sampleInput)) :=
  store_get_round_trip linkedState 3 sampleInput
    ⟨.agentKey 3, .actionHash 7, .AgentToPerson⟩ (by decide) (by decide)
    (by decide) (by decide)

/-- C5: Orphan store — when the caller has no `AgentToPerson` edge, the store
skips the linking step without error (the link graph is unchanged), still
persists the private record and returns it as a valid record, and an immediate
`get_my_private_person_data` for that caller returns nothing. -/
theorem orphan_store (s : SubstrateState) (caller : Nat)
    (input : PrivatePersonDataInput) (hWF : s.WF) (hlost : s.nextHash ∉ s.lost)
    (hnoperson : hdkGetLinks s (.agentKey caller) .AgentToPerson = []) :
    (store_private_person_data s caller input).1 =
      .ok ⟨s.nextHash, ⟨caller, .privatePersonData (toPrivatePersonData input),
        privatePersonDataIsPrivate, none⟩⟩ ∧
    (store_private_person_data s caller input).2.links = s.links ∧
    get_my_private_person_data (store_private_person_data s caller input).2
      caller = .ok none := by
  rw [store_without_person_link s caller input hWF hlost hnoperson]
  refine ⟨rfl, rfl, ?_⟩
  simp [get_my_private_person_data, hdkGetLinks_createEntry, hnoperson]

theorem orphan_store_witness :
    (store_private_person_data emptyState 4 sampleInput).1 =
      .ok ⟨0, ⟨4, .privatePersonData (toPrivatePersonData sampleInput),
        privatePersonDataIsPrivate, none⟩⟩ ∧
    (store_private_person_data emptyState 4 sampleInput).2.links =
      emptyState.links ∧
    get_my_private_person_data (store_private_person_data emptyState 4
      sampleInput).2 4 = .ok none :=
  orphan_store emptyState 4 sampleInput (by decide) (by decide) rfl

/-- C6: Update error behaviour — `update_private_person_data` first resolves
the original action hash and propagates the substrate's error verbatim when
that resolution fails; when it succeeds, after performing the update against
the previous action hash it reads back the new address and fails with
`EntryOperationFailed` if and only if that read-back returns nothing, and
otherwise returns the record read back in that step. -/
theorem update_error_behaviour (s : SubstrateState) (caller : Nat)
    (input : UpdatePrivatePersonDataInput) :
    (∀ e, must_get_valid_record s input.original_action_hash = .error e →
      (update_private_person_data s caller input).1 = .error e) ∧
    (∀ r0, must_get_valid_record s input.original_action_hash = .ok r0 →
      (((update_private_person_data s caller input).1 =
          .error (.EntryOperationFailed "Failed to retrieve updated private data")) ↔
        hdkGet (hdkUpdateEntry s caller input.previous_action_hash
            (.privatePersonData (toPrivatePersonData input.updated_private_data))
            privatePersonDataIsPrivate).2 caller s.nextHash = none) ∧
      (∀ r, hdkGet (hdkUpdateEntry s caller input.previous_action_hash
            (.privatePersonData (toPrivatePersonData input.updated_private_data))
            privatePersonDataIsPrivate).2 caller s.nextHash = some r →
        (update_private_person_data s caller input).1 = .ok r)) := by
  constructor
  · intro e he
    unfold update_private_person_data
    rw [he]
  · intro r0 h0
    unfold update_private_person_data
    rw [h0]
    dsimp only
    rw [hdkUpdateEntry_fst]
    cases hg : hdkGet (hdkUpdateEntry s caller input.previous_action_hash
        (.privatePersonData (toPrivatePersonData input.updated_private_data))
        privatePersonDataIsPrivate).2 caller s.nextHash with
    | none =>
      refine ⟨by simp, ?_⟩
      intro r hr
      simp at hr
    | some record =>
      refine ⟨by simp, ?_⟩
      intro r hr
      injection hr with hr2
      subst hr2
      rfl

theorem update_error_behaviour_witness :
    (update_private_person_data oneRecordState 7 sampleUpdateInput).1 =
      .ok ⟨1, ⟨7, .privatePersonData (toPrivatePersonData sampleInput),
        privatePersonDataIsPrivate, some 0⟩⟩ :=
  ((update_error_behaviour oneRecordState 7 sampleUpdateInput).2
    ⟨0, ⟨7, .otherEntry 0, false, none⟩⟩ rfl).2 _ rfl

/-- C7: Update creates no link — `update_private_person_data` leaves the link
graph unchanged in every outcome, so in particular the set of
`PersonToPrivateData` edges before and after a successful update is
identical. -/
theorem update_creates_no_link (s : SubstrateState) (caller : Nat)
    (input : UpdatePrivatePersonDataInput) :
    (update_private_person_data s caller input).2.links = s.links ∧
    ∀ base lt, hdkGetLinks (update_private_person_data s caller input).2 base lt =
      hdkGetLinks s base lt := by
  have hlinks : (update_private_person_data s caller input).2.links = s.links := by
    unfold update_private_person_data
    cases must_get_valid_record s input.original_action_hash with
    | error e => rfl
    | ok r =>
      dsimp only
      split <;> rfl
  refine ⟨hlinks, ?_⟩
  intro base lt
  unfold hdkGetLinks
  rw [hlinks]

/-- C8: Multiple links determinism — for an identity with an existing person
link whose target has no prior `PersonToPrivateData` edges, storing P1 and
then P2 creates two private records and two `PersonToPrivateData` edges in
oldest-first order, and `get_my_private_person_data` deterministically returns
the payload reachable via the first edge of that traversal order (P1). -/
theorem multiple_links_first_edge (s : SubstrateState) (caller : Nat)
    (P1 P2 : PrivatePersonDataInput) (pl : Link) (hWF : s.WF)
    (h1 : s.nextHash ∉ s.lost) (h2 : s.nextHash + 1 ∉ s.lost)
    (hpl : (hdkGetLinks s (.agentKey caller) .AgentToPerson).head? = some pl)
    (hnodata : hdkGetLinks s pl.target .PersonToPrivateData = []) :
    lookupRecord (store_private_person_data
        (store_private_person_data s caller P1).2 caller P2).2 s.nextHash =
      some ⟨caller, .privatePersonData (toPrivatePersonData P1),
        privatePersonDataIsPrivate, none⟩ ∧
    lookupRecord (store_private_person_data
        (store_private_person_data s caller P1).2 caller P2).2 (s.nextHash + 1) =
      some ⟨caller, .privatePersonData (toPrivatePersonData P2),
        privatePersonDataIsPrivate, none⟩ ∧
    hdkGetLinks (store_private_person_data
        (store_private_person_data s caller P1).2 caller P2).2
      pl.target .PersonToPrivateData =
      [⟨pl.target, .actionHash s.nextHash, .PersonToPrivateData⟩,
       ⟨pl.target, .actionHash (s.nextHash + 1), .PersonToPrivateData⟩] ∧
    get_my_private_person_data (store_private_person_data
        (store_private_person_data s caller P1).2 caller P2).2 caller =
      .ok (some (toPrivatePersonData P1)) := by
  rw [store_with_person_link s caller P1 pl hWF h1 hpl]
  have hWF2 : (hdkCreateLink (hdkCreateEntry s caller
      (.privatePersonData (toPrivatePersonData P1)) privatePersonDataIsPrivate).2
      pl.target (.actionHash s.nextHash) .PersonToPrivateData).WF :=
    WF_createLink _ _ _ _ (WF_createEntry s caller _ _ hWF)
  have hlost2 : (hdkCreateLink (hdkCreateEntry s caller
      (.privatePersonData (toPrivatePersonData P1)) privatePersonDataIsPrivate).2
      pl.target (.actionHash s.nextHash) .PersonToPrivateData).nextHash ∉
      (hdkCreateLink (hdkCreateEntry s caller
      (.privatePersonData (toPrivatePersonData P1)) privatePersonDataIsPrivate).2
      pl.target (.actionHash s.nextHash) .PersonToPrivateData).lost := h2
  have hpl2 : (hdkGetLinks (hdkCreateLink (hdkCreateEntry s caller
      (.privatePersonData (toPrivatePersonData P1)) privatePersonDataIsPrivate).2
      pl.target (.actionHash s.nextHash) .PersonToPrivateData)
      (.agentKey caller) .AgentToPerson).head? = some pl := by
    rw [hdkGetLinks_createLink_ne _ _ _ _ _ _ (by decide), hdkGetLinks_createEntry]
    exact hpl
  rw [store_with_person_link _ caller P2 pl hWF2 hlost2 hpl2]
  simp only [hdkCreateLink_nextHash, hdkCreateEntry_nextHash]
  have hr1 : lookupRecord (hdkCreateLink (hdkCreateEntry s caller
      (.privatePersonData (toPrivatePersonData P1)) privatePersonDataIsPrivate).2
      pl.target (.actionHash s.nextHash) .PersonToPrivateData) s.nextHash =
      some ⟨caller, .privatePersonData (toPrivatePersonData P1),
        privatePersonDataIsPrivate, none⟩ := by
    rw [lookupRecord_createLink]
    exact lookupRecord_createEntry_self s caller _ _ hWF
  refine ⟨?_, ?_, ?_, ?_⟩
  · rw [lookupRecord_createLink]
    exact lookupRecord_createEntry_old _ _ _ _ _ _ hr1
  · rw [lookupRecord_createLink]
    exact lookupRecord_createEntry_self _ caller _ _ hWF2
  · rw [hdkGetLinks_createLink_same, hdkGetLinks_createEntry,
      hdkGetLinks_createLink_same, hdkGetLinks_createEntry, hnodata]
    rfl
  · unfold get_my_private_person_data
    dsimp only
    rw [hdkGetLinks_createLink_ne _ _ _ _ _ _ (by decide), hdkGetLinks_createEntry,
      hdkGetLinks_createLink_ne _ _ _ _ _ _ (by decide), hdkGetLinks_createEntry,
      hpl]
    dsimp only
    rw [hdkGetLinks_createLink_same, hdkGetLinks_createEntry,
      hdkGetLinks_createLink_same, hdkGetLinks_createEntry, hnodata]
    dsimp only [List.nil_append, List.cons_append, List.head?,
      LinkableHash.into_action_hash]
    rw [hdkGet_createLink, hdkGet_createEntry_old _ _ _ _ _ _ _ hr1,
      hdkGet_createLink, hdkGet_created_self s caller _ _ hWF h1]
    rfl

theorem multiple_links_first_edge_witness :
    lookupRecord (store_private_person_data
        (store_private_person_data linkedState 3 sampleInput).2 3 secondInput).2 0 =
      some ⟨3, .privatePersonData (toPrivatePersonData sampleInput),
        privatePersonDataIsPrivate, none⟩ ∧
    lookupRecord (store_private_person_data
        (store_private_person_data linkedState 3 sampleInput).2 3 secondInput).2 1 =
      some ⟨3, .privatePersonData (toPrivatePersonData secondInput),
        privatePersonDataIsPrivate, none⟩ ∧
    hdkGetLinks (store_private_person_data
        (store_private_person_data linkedState 3 sampleInput).2 3 secondInput).2
      (LinkableHash.actionHash 7) .PersonToPrivateData =
      [⟨.actionHash 7, .actionHash 0, .PersonToPrivateData⟩,
       ⟨.actionHash 7, .actionHash 1, .PersonToPrivateData⟩] ∧
    get_my_private_person_data (store_private_person_data
        (store_private_person_data linkedState 3 sampleInput).2 3 secondInput).2 3 =
      .ok (some (toPrivatePersonData sampleInput)) :=
  multiple_links_first_edge linkedState 3 sampleInput secondInput
    ⟨.agentKey 3, .actionHash 7, .AgentToPerson⟩ (by decide) (by decide)
    (by decide) (by decide) (by decide)

/-- C9: In `get_my_private_person_data`, if the first `PersonToPrivateData`
edge's target cannot be converted into an action hash, the function returns
the empty result without error and without trying any later edge. -/
theorem get_first_edge_not_action_hash (s : SubstrateState) (caller : Nat)
    (pl dl : Link)
    (hpl : (hdkGetLinks s (.agentKey caller) .AgentToPerson).head? = some pl)
    (hdl : (hdkGetLinks s pl.target .PersonToPrivateData).head? = some dl)
    (hna : dl.target.into_action_hash = none) :
    get_my_private_person_data s caller = .ok none := by
  simp [get_my_private_person_data, hpl, hdl, hna]

theorem get_first_edge_not_action_hash_witness :
    get_my_private_person_data entryHashFirstState 2 = .ok none ∧
    hdkGet entryHashFirstState 2 1 =
      some ⟨1, ⟨2, .privatePersonData (toPrivatePersonData sampleInput),
        true, none⟩⟩ :=
  ⟨get_first_edge_not_action_hash entryHashFirstState 2
      ⟨.agentKey 2, .actionHash 0, .AgentToPerson⟩
      ⟨.actionHash 0, .entryHash 5, .PersonToPrivateData⟩
      (by decide) (by decide) rfl,
    rfl⟩

/-- C10: No content validation — `store_private_person_data` copies the seven
input fields verbatim into the stored entry and succeeds (given substrate
success) for every input, including one whose required `legal_name` and
`email` fields are empty strings; "required" holds only because the input
type forces the two fields to be present. -/
theorem store_no_content_validation (s : SubstrateState) (caller : Nat)
    (input : PrivatePersonDataInput) (hWF : s.WF) (hlost : s.nextHash ∉ s.lost) :
    toPrivatePersonData input = ⟨input.legal_name, input.email, input.phone,
      input.address, input.emergency_contact, input.time_zone, input.location⟩ ∧
    (store_private_person_data s caller input).1 =
      .ok ⟨s.nextHash, ⟨caller, .privatePersonData (toPrivatePersonData input),
        privatePersonDataIsPrivate, none⟩⟩ ∧
    lookupRecord (store_private_person_data s caller input).2 s.nextHash =
      some ⟨caller, .privatePersonData (toPrivatePersonData input),
        privatePersonDataIsPrivate, none⟩ := by
  refine ⟨rfl, ?_, ?_⟩
  · unfold store_private_person_data
    dsimp only
    rw [hdkCreateEntry_fst, hdkGet_created_self s caller _ _ hWF hlost]
    dsimp only
    cases (hdkGetLinks (hdkCreateEntry s caller
        (.privatePersonData (toPrivatePersonData input))
        privatePersonDataIsPrivate).2 (.agentKey caller) .AgentToPerson).head? <;>
      rfl
  · obtain ⟨hrec, -⟩ := store_shape s caller input
    unfold lookupRecord
    rw [hrec, find?_key_fresh _ _ _ hWF]
    rfl

theorem store_no_content_validation_witness :
    toPrivatePersonData emptyFieldsInput = ⟨emptyFieldsInput.legal_name,
      emptyFieldsInput.email, emptyFieldsInput.phone, emptyFieldsInput.address,
      emptyFieldsInput.emergency_contact, emptyFieldsInput.time_zone,
      emptyFieldsInput.location⟩ ∧
    (store_private_person_data emptyState 9 emptyFieldsInput).1 =
      .ok ⟨0, ⟨9, .privatePersonData (toPrivatePersonData emptyFieldsInput),
        privatePersonDataIsPrivate, none⟩⟩ ∧
    lookupRecord (store_private_person_data emptyState 9 emptyFieldsInput).2 0 =
      some ⟨9, .privatePersonData (toPrivatePersonData emptyFieldsInput),
        privatePersonDataIsPrivate, none⟩ :=
  store_no_content_validation emptyState 9 emptyFieldsInput (by decide) (by decide)

end Nondominium
